import Mathlib

/-!
Shallow embedding of the Paradrop API bridge / update synchronization
manager (`paradrop/backend/pdfcd/apibridge.py`) and of the UCI host
configuration store interface exercised by `tests/paradrop/test_utils.py`.

Conventions of the embedding:
* JSON values carried by the server protocol are modelled by `JValue`.
* Python's `set` of in-progress update IDs is modelled as a `List String`
  used up to membership; the code only ever adds an element after checking
  that it is absent, so the list stays duplicate-free.
* Runtime-only handles in the source (`tok=timeint()`, `pkg=BridgePackage()`,
  `func=d.callback` / `UpdateCallback(d)`) are time stamps and callback
  objects, not data the claims quantify over; they are modelled where a
  claim needs them (the callback wiring) and omitted from the plain
  update-dictionary record otherwise.
-/

namespace Paradrop

/-- A JSON-like value, as delivered by the pdserver protocol.  `obj` is a
Python `dict`, `arr` a list; the other constructors are scalars. -/
inductive JValue where
  | str : String → JValue
  | num : Int → JValue
  | jbool : Bool → JValue
  | null : JValue
  | arr : List JValue → JValue
  | obj : List (String × JValue) → JValue


/-- One item of the server's update list
(`GET /api/routers/\x7brouter_id\x7d/updates` response data).  Optional
fields are `Option`; Python's `item.get('started', False)` reads `started`
with default `false`, `item.get(k, None)` reads with default `None`. -/
structure UpdateItem where
  _id : String
  updateClass : String
  updateType : String
  started : Option Bool
  chute_id : Option String
  version_id : Option String
  config : Option JValue


/-- The `external` sub-dictionary built in `UpdateManager.updatesReceived`
(apibridge.py lines 206-210): fields that relate to external management of
the chute. -/
structure External where
  update_id : String
  chute_id : Option String
  version_id : Option String
deriving DecidableEq, Repr


/-- The update dictionary built in `UpdateManager.updatesReceived`
(apibridge.py lines 199-216), minus the runtime handles `tok`, `pkg` and
`func`.  `payload` holds the key/value pairs merged from the item's
`config` block by `update.update(config)`. -/
structure Update where
  updateClass : String
  updateType : String
  external : External
  payload : List (String × JValue)


/-- The server's fetch response: `{success: bool, data: list?}`. -/
structure Response where
  success : Bool
  data : Option (List UpdateItem)


/-- Result of one run of `UpdateManager.updatesReceived`:
the new `updatesInProgress` set, the list of update dictionaries handed to
`APIBridge.configurer.updateList` (each with its own completion Deferred),
and whether a `DeferredList` waiting for batch completion was installed
(apibridge.py lines 223-225: only when at least one update was
dispatched). -/
structure RecvResult where
  updatesInProgress : List String
  dispatched : List Update
  batchRegistered : Bool


/-- Build the update dictionary for one admitted item
(apibridge.py lines 199-216): copy `updateClass`/`updateType`, save the
`external` management fields, and merge the `config` block into the
payload only when it is present and is a dict
(`config = item.get('config', \x7b\x7d); if isinstance(config, dict):
update.update(config)`). -/
def mkUpdate (item : UpdateItem) : Update :=
  let ext : External := ⟨item._id, item.chute_id, item.version_id⟩
  let config := item.config.getD (JValue.obj [])
  let payload : List (String × JValue) :=
    match config with
    | JValue.obj kvs => kvs
    | _ => []
  ⟨item.updateClass, item.updateType, ext, payload⟩

/-- One iteration of the `for item in updates` loop of
`UpdateManager.updatesReceived` (apibridge.py lines 178-218), acting on the
pair (current in-progress set, updates dispatched so far):
skip the item when its `_id` is already in progress or it is flagged
`started`; otherwise add its `_id` to the in-progress set and dispatch the
update built from it. -/
def processItem (st : List String × List Update) (item : UpdateItem) :
    List String × List Update :=
  if item._id ∈ st.1 ∨ item.started.getD false = true then st
  else (item._id :: st.1, st.2 ++ [mkUpdate item])

/-- `UpdateManager.updatesReceived` (apibridge.py lines 159-225).
On `not response.success or response.data is None` it only logs and
returns, leaving the in-progress set untouched.  Otherwise it removes
in-progress IDs that the server no longer sends
(`updatesInProgress -= updatesInProgress - receivedSet`, lines 174-176),
runs the admission loop over the items, and installs a `DeferredList`
callback exactly when at least one update was dispatched. -/
def updatesReceived (updatesInProgress : List String) (response : Response) :
    RecvResult :=
  match response with
  | ⟨true, some updates⟩ =>
      let receivedSet := updates.map (fun item => item._id)
      let cleaned := updatesInProgress.filter (fun x => decide (x ∈ receivedSet))
      let fin := updates.foldl processItem (cleaned, [])
      ⟨fin.1, fin.2, decide (0 < fin.2.length)⟩
  | ⟨_, _⟩ => ⟨updatesInProgress, [], false⟩

/-- Outcome of the HTTP GET issued by `UpdateManager.startUpdate`: either a
transport-level failure (handled by `handleError`, which only logs the
error message) or a response delivered to `updatesReceived`. -/
inductive FetchResult where
  | transportError : String → FetchResult
  | ok : Response → FetchResult


/-- One fetch cycle of `UpdateManager.startUpdate`
(apibridge.py lines 130-157): the GET either fails at the transport level,
in which case `handleError` only prints the error, or its response is
handed to `updatesReceived`.  The timer logic (reset on explicit trigger,
arming of the LoopingCall) does not touch the in-progress set. -/
def startUpdate (updatesInProgress : List String) (r : FetchResult) :
    RecvResult :=
  match r with
  | FetchResult.transportError _ => ⟨updatesInProgress, [], false⟩
  | FetchResult.ok resp => updatesReceived updatesInProgress resp

/-- External update identifier carried by a dispatched update. -/
def Update.updateId (u : Update) : String := u.external.update_id

/-! ### Completion callbacks -/

/-- The `result` dictionary set by `UpdateObject.complete(success, message)`:
`\x7bsuccess: bool, message: string\x7d`. -/
structure UpdateResult where
  success : Bool
  message : String
deriving DecidableEq, Repr

/-- A completed update object as observed by the completion callbacks in
apibridge.py: its `result`, its `delegated` flag, and its `external`
management fields (the fields those callbacks actually read). -/
structure CompletedUpdate where
  result : UpdateResult
  delegated : Bool
  external : External
deriving DecidableEq, Repr

/-- `UpdateCallback.__call__` (apibridge.py lines 49-56): the callback
object stored as the update's `func`; when `complete()` fires it with the
completed update object, it calls the stored Deferred's callback with just
`update.result`. -/
def UpdateCallback.call {α : Type} (d : UpdateResult → α)
    (update : CompletedUpdate) : α :=
  d update.result

/-- The PATCH request sent by `UpdateManager.updateComplete`: URL and the
`\x7bop, path, value\x7d` body fields. -/
structure PatchRequest where
  url : String
  op : String
  path : String
  value : Bool
deriving DecidableEq, Repr

/-- `UpdateManager.updateComplete` (apibridge.py lines 227-243): the
callback attached to each dispatched update's Deferred.  It receives the
completed update object; if the update was delegated to an external
program it returns without reporting, otherwise it sends one PATCH to
`/api/routers/\x7brouter_id\x7d/updates/\x7bupdate_id\x7d` with body
`\x7b'op': 'replace', 'path': '/completed', 'value': True\x7d`. -/
def updateComplete (update : CompletedUpdate) : Option PatchRequest :=
  if update.delegated then none
  else some ⟨"/api/routers/{router_id}/updates/" ++ update.external.update_id,
    "replace", "/completed", true⟩

/-! ### Batch completion (`DeferredList` + `allUpdatesComplete`) -/

/-- Events of one batch's completion phase: a member update reaching its
completed state (firing its Deferred), or `allUpdatesComplete` running and
sending the aggregate state report (`sendStateReport`). -/
inductive BatchEvent where
  | completes : Nat → BatchEvent
  | stateReport : BatchEvent
deriving DecidableEq, Repr

/-- One member Deferred of the batch's `DeferredList` fires.  The
`DeferredList` over `n` deferreds counts fired members and, at the moment
the count reaches `n`, runs its `addBoth` callback `allUpdatesComplete`,
which sends the aggregate state report (apibridge.py lines 221-225 and
251-253). -/
def dlStep (n : Nat) (st : Nat × List BatchEvent) (i : Nat) :
    Nat × List BatchEvent :=
  let c := st.1 + 1
  if c = n then (c, st.2 ++ [BatchEvent.completes i, BatchEvent.stateReport])
  else (c, st.2 ++ [BatchEvent.completes i])

/-- Event trace of one batch of `n` dispatched updates whose completions
fire in the order `order` (each entry naming the index of the member that
completes). -/
def runBatch (n : Nat) (order : List Nat) : List BatchEvent :=
  (order.foldl (dlStep n) (0, [])).2

/-! ### `APIBridge` (local operations) -/

/-- The chute configurer (instance of PDConfigurer) registered through
`APIBridge.setConfigurer`; opaque to apibridge.py beyond its identity. -/
structure Configurer where
  label : String
deriving DecidableEq, Repr

/-- The update dictionary handed to `configurer.updateList` by
`APIBridge.update`, minus the runtime handles `tok`, `pkg`, `func`. -/
structure BridgeUpdate where
  updateType : String
  options : List (String × JValue)

/-- Outcome of `APIBridge.update`: either the call raises (configurer not
set) and nothing is dispatched, or the update dictionary is dispatched to
`configurer.updateList` and the Deferred is returned to the caller. -/
inductive BridgeOutcome where
  | raised : String → BridgeOutcome
  | deferredReturned : BridgeUpdate → BridgeOutcome

/-- `APIBridge.update` (apibridge.py lines 72-99): raise when no
configurer has been set; otherwise default `updateClass` to `'CHUTE'` when
the options do not specify one, dispatch to `configurer.updateList`, and
return the Deferred. -/
def APIBridge.update (configurer : Option Configurer) (updateType : String)
    (options : List (String × JValue)) : BridgeOutcome :=
  match configurer with
  | none => BridgeOutcome.raised "Error: chute configurer is not available."
  | some _ =>
      let options1 :=
        if (List.lookup "updateClass" options).isNone then
          options ++ [("updateClass", JValue.str "CHUTE")]
        else options
      BridgeOutcome.deferredReturned ⟨updateType, options1⟩

/-- `APIBridge.createChute` (apibridge.py line 101). -/
def APIBridge.createChute (configurer : Option Configurer)
    (config : List (String × JValue)) : BridgeOutcome :=
  APIBridge.update configurer "create" config

/-- `APIBridge.updateChute` (apibridge.py line 104). -/
def APIBridge.updateChute (configurer : Option Configurer)
    (config : List (String × JValue)) : BridgeOutcome :=
  APIBridge.update configurer "update" config

/-- `APIBridge.deleteChute` (apibridge.py line 107). -/
def APIBridge.deleteChute (configurer : Option Configurer) (name : String) :
    BridgeOutcome :=
  APIBridge.update configurer "delete" [("name", JValue.str name)]

/-- `APIBridge.startChute` (apibridge.py line 110). -/
def APIBridge.startChute (configurer : Option Configurer) (name : String) :
    BridgeOutcome :=
  APIBridge.update configurer "start" [("name", JValue.str name)]

/-- `APIBridge.stopChute` (apibridge.py line 113). -/
def APIBridge.stopChute (configurer : Option Configurer) (name : String) :
    BridgeOutcome :=
  APIBridge.update configurer "stop" [("name", JValue.str name)]

/-- `APIBridge.updateHostConfig` (apibridge.py lines 116-118): explicitly
passes `updateClass='ROUTER'`. -/
def APIBridge.updateHostConfig (configurer : Option Configurer)
    (config : JValue) : BridgeOutcome :=
  APIBridge.update configurer "sethostconfig"
    [("updateClass", JValue.str "ROUTER"),
     ("name", JValue.str "__PARADROP__"),
     ("hostconfig", config)]

/-! ### Update construction (`update_object.parse`) -/

/-- Modelled from the spec: the update classes with a registered
constructor in `update_object.parse` (`update_object.py` is not under
`src/`).  Spec §3: `updateClass ∈ \x7bCHUTE, ROUTER\x7d`;
`test_update_object_parse` shows class `CHUTE` parses and class `FAIL`
raises. -/
def recognizedUpdateClasses : List String := ["CHUTE", "ROUTER"]

/-- Modelled from the spec: `update_object.parse` (not under `src/`),
which constructs the update state machine object for a dispatched update
dictionary and raises for an unrecognized `updateClass` (spec §7:
"Unrecognized updateClass/updateType combination at admission: treated as
a fatal construction error for that single item";
`test_update_object_parse` exercises exactly this). -/
def parse (u : Update) : Except String Update :=
  if u.updateClass ∈ recognizedUpdateClasses then Except.ok u
  else Except.error ("Unknown updateClass: " ++ u.updateClass)

/-! ### UCI host configuration store (modelled from the spec)

`paradrop/lib/utils/uci.py` is not under `src/`; only its test
(`tests/paradrop/test_utils.py`, `test_uci`) is.  The parser and the
`getConfig` matcher below are modelled from spec §4.4. -/

/-- A single quote character (ASCII 39), used by UCI option values. -/
def quoteChar : Char := Char.ofNat 39

/-- The space character (ASCII 32). -/
def spaceChar : Char := Char.ofNat 32

/-- The `#` character (ASCII 35), which prefixes a section's owner tag. -/
def hashChar : Char := Char.ofNat 35

/-- The newline character (ASCII 10). -/
def newlineChar : Char := Char.ofNat 10

/-- Split a character list at every occurrence of `sep` (the separators
are dropped; empty fields are kept). -/
def splitOnChar (sep : Char) : List Char → List (List Char)
  | [] => [[]]
  | c :: rest =>
      match splitOnChar sep rest with
      | [] => if c = sep then [[], []] else [[c]]
      | w :: ws => if c = sep then [] :: w :: ws else (c :: w) :: ws

/-- The whitespace-separated words of one line. -/
def wordsOf (line : List Char) : List (List Char) :=
  (splitOnChar spaceChar line).filter (fun w => w ≠ [])

/-- Rejoin words with single spaces (an option value may contain spaces
inside its quotes). -/
def joinWords : List (List Char) → List Char
  | [] => []
  | [w] => w
  | w :: ws => w ++ spaceChar :: joinWords ws

/-- Modelled from the spec: one record of the host configuration store,
`\x7btype, name (optional), ownerTag (optional), options\x7d` (spec §3);
the owner tag is stored under the `comment` key in the Python code
(`test_uci` patterns use `"comment"`). -/
structure ConfigSection where
  type : String
  name : Option String
  comment : Option String
  options : List (String × String)
deriving DecidableEq, Repr

/-- Strip a matching pair of single quotes from an option value. -/
def stripQuotes (cs : List Char) : List Char :=
  if 2 ≤ cs.length ∧ cs.head? = some quoteChar ∧ cs.getLast? = some quoteChar
  then (cs.drop 1).dropLast
  else cs

/-- Modelled from the spec: one line of the sectioned text format
(spec §4.4: "reads a sectioned text format into an ordered sequence of
ConfigSections ... a named comment token on a section line is interpreted
as the ownerTag").  A `config` line opens a new section with its type,
optional name, and optional `#`-prefixed owner tag; an `option` line adds
a key/value pair (value unquoted) to the section being built.  Sections
are accumulated in reverse. -/
def parseStep (acc : List ConfigSection) (line : List Char) :
    List ConfigSection :=
  match wordsOf line with
  | w :: second :: rest =>
      if w = "config".data then
        let name := (rest.filter (fun t => t.head? ≠ some hashChar)).head?
        let comment :=
          ((rest.filter (fun t => t.head? = some hashChar)).head?).map
            (fun t => t.drop 1)
        ⟨String.mk second, name.map String.mk, comment.map String.mk, []⟩ :: acc
      else if w = "option".data then
        match acc with
        | [] => acc
        | sec :: tail =>
            ⟨sec.type, sec.name, sec.comment,
              sec.options ++
                [(String.mk second,
                  String.mk (stripQuotes (joinWords rest)))]⟩ :: tail
      else acc
  | _ => acc

/-- Modelled from the spec: parsing a UCI file's content
(`uci.UCIConfig(path)`) into the ordered sequence of its sections. -/
def loadConfig (content : String) : List ConfigSection :=
  ((splitOnChar newlineChar content.data).foldl parseStep []).reverse

/-- A section pattern for `getConfig`: each of type/name/ownerTag is
present or a wildcard (spec §4.4, design note §9). -/
structure SectionPattern where
  type : Option String
  name : Option String
  comment : Option String
deriving DecidableEq, Repr

/-- A pattern with no fields present (the Python empty dict `\x7b\x7d`). -/
def SectionPattern.isEmpty (p : SectionPattern) : Bool :=
  p.type.isNone && p.name.isNone && p.comment.isNone

/-- One pattern field matches a section field iff the pattern field is
absent (wildcard) or equals the section's field. -/
def fieldMatches (pf : Option String) (sf : Option String) : Bool :=
  match pf with
  | none => true
  | some v => decide (sf = some v)

/-- Modelled from the spec: `UCIConfig.getConfig(sectionPattern)`
(spec §4.4: "a section matches a non-empty pattern iff every field present
in the pattern (type/name/ownerTag) equals the section's corresponding
field ...; fields absent from the pattern are wildcards.  An empty section
pattern matches nothing"). -/
def getConfig (sections : List ConfigSection) (p : SectionPattern) :
    List ConfigSection :=
  if p.isEmpty then []
  else sections.filter (fun s =>
    fieldMatches p.type (some s.type) && fieldMatches p.name s.name &&
      fieldMatches p.comment s.comment)

/-- The quoted UCI option value written in the test file. -/
def quoted (s : String) : String :=
  quoteChar.toString ++ s ++ quoteChar.toString

/-- The file content `NETWORK_WAN_CONFIG` of
`tests/paradrop/test_utils.py`: one section
`config interface wan #__PARADROP__` with options `ifname` and `proto`. -/
def networkWanConfig : String :=
  "\nconfig interface wan #__PARADROP__\n    option ifname " ++
    quoted "eth0" ++ "\n    option proto " ++ quoted "dhcp" ++ "\n"

/-! ### Invariants of the admission loop -/

lemma processItem_cases (st : List String × List Update) (item : UpdateItem) :
    processItem st item = st ∨
      (item._id ∉ st.1 ∧ item.started.getD false = false ∧
        processItem st item = (item._id :: st.1, st.2 ++ [mkUpdate item])) := by
  by_cases h : item._id ∈ st.1 ∨ item.started.getD false = true
  · left
    simp only [processItem, if_pos h]
  · right
    push_neg at h
    refine ⟨h.1, ?_, ?_⟩
    · cases hb : item.started.getD false with
      | false => rfl
      | true => exact absurd hb h.2
    · simp only [processItem, if_neg (not_or.mpr h)]

/-- The in-progress set only grows during the admission loop. -/
lemma foldl_processItem_fst_mono (items : List UpdateItem)
    (st : List String × List Update) :
    st.1 ⊆ (items.foldl processItem st).1 := by
  induction items generalizing st with
  | nil => exact fun x hx => hx
  | cons a rest ih =>
      intro x hx
      simp only [List.foldl_cons]
      rcases processItem_cases st a with h | ⟨_, _, h⟩
      · rw [h]; exact ih st hx
      · rw [h]; exact ih _ (List.mem_cons_of_mem _ hx)

/-- Every dispatched update's external ID is in the in-progress set, and
the dispatched IDs are pairwise distinct, provided the same holds of the
starting state. -/
lemma foldl_processItem_inv (items : List UpdateItem)
    (st : List String × List Update)
    (h1 : ∀ u ∈ st.2, u.updateId ∈ st.1)
    (h2 : (st.2.map Update.updateId).Nodup) :
    (∀ u ∈ (items.foldl processItem st).2,
      u.updateId ∈ (items.foldl processItem st).1)
    ∧ ((items.foldl processItem st).2.map Update.updateId).Nodup := by
  induction items generalizing st with
  | nil => exact ⟨h1, h2⟩
  | cons a rest ih =>
      simp only [List.foldl_cons]
      rcases processItem_cases st a with h | ⟨hnotin, _, h⟩
      · rw [h]; exact ih st h1 h2
      · rw [h]
        apply ih
        · intro u hu
          rcases List.mem_append.mp hu with hu | hu
          · exact List.mem_cons_of_mem _ (h1 u hu)
          · rw [List.mem_singleton.mp hu]
            exact List.mem_cons_self _ _
        · rw [List.map_append]
          refine List.Nodup.append h2 (List.nodup_singleton _) ?_
          intro x hx hx'
          rcases List.mem_map.mp hx with ⟨u, hu, rfl⟩
          rw [List.map_singleton, List.mem_singleton] at hx'
          have hid : (mkUpdate a).updateId = a._id := rfl
          exact hnotin (hid ▸ hx' ▸ h1 u hu)

/-- Every update dispatched by the admission loop originates from an item
of the list that was not flagged `started` and whose ID was not in the
in-progress set the loop started from. -/
lemma foldl_processItem_provenance (items : List UpdateItem)
    (st : List String × List Update) :
    ∀ u ∈ (items.foldl processItem st).2,
      u ∈ st.2 ∨ ∃ item, item ∈ items ∧ u = mkUpdate item ∧
        item.started.getD false = false ∧ item._id ∉ st.1 := by
  induction items generalizing st with
  | nil => exact fun u hu => Or.inl hu
  | cons a rest ih =>
      intro u hu
      simp only [List.foldl_cons] at hu
      rcases processItem_cases st a with h | ⟨hnotin, hstart, h⟩
      · rw [h] at hu
        rcases ih st u hu with h' | ⟨item, hi, he, hs, hn⟩
        · exact Or.inl h'
        · exact Or.inr ⟨item, List.mem_cons_of_mem _ hi, he, hs, hn⟩
      · rw [h] at hu
        rcases ih _ u hu with h' | ⟨item, hi, he, hs, hn⟩
        · rcases List.mem_append.mp h' with h'' | h''
          · exact Or.inl h''
          · exact Or.inr ⟨a, List.mem_cons_self _ _, List.mem_singleton.mp h'',
              hstart, hnotin⟩
        · exact Or.inr ⟨item, List.mem_cons_of_mem _ hi, he, hs,
            fun hmem => hn (List.mem_cons_of_mem _ hmem)⟩

/-- Every ID in the in-progress set after the admission loop was either
there before the loop or is the `_id` of one of the processed items. -/
lemma foldl_processItem_fst_from (items : List UpdateItem)
    (st : List String × List Update) :
    ∀ x ∈ (items.foldl processItem st).1,
      x ∈ st.1 ∨ x ∈ items.map (fun i => i._id) := by
  induction items generalizing st with
  | nil => exact fun x hx => Or.inl hx
  | cons a rest ih =>
      intro x hx
      simp only [List.foldl_cons] at hx
      rcases processItem_cases st a with h | ⟨_, _, h⟩
      · rw [h] at hx
        rcases ih st x hx with h' | h'
        · exact Or.inl h'
        · exact Or.inr (by rw [List.map_cons]; exact List.mem_cons_of_mem _ h')
      · rw [h] at hx
        rcases ih _ x hx with h' | h'
        · rcases List.mem_cons.mp h' with rfl | h''
          · exact Or.inr (by rw [List.map_cons]; exact List.mem_cons_self _ _)
          · exact Or.inl h''
        · exact Or.inr (by rw [List.map_cons]; exact List.mem_cons_of_mem _ h')

/-- Unfolding of `updatesReceived` on a successful response with data. -/
lemma updatesReceived_success (ip : List String) (updates : List UpdateItem) :
    updatesReceived ip ⟨true, some updates⟩ =
      ⟨(updates.foldl processItem
          (ip.filter (fun x => decide (x ∈ updates.map (fun item => item._id))), [])).1,
       (updates.foldl processItem
          (ip.filter (fun x => decide (x ∈ updates.map (fun item => item._id))), [])).2,
       decide (0 < (updates.foldl processItem
          (ip.filter (fun x => decide (x ∈ updates.map (fun item => item._id))), [])).2.length)⟩ :=
  rfl

/-- C1: for every item in a successful fetch response, an item whose `_id`
is already in the in-progress set, or whose `started` flag is true, is
skipped (no update is constructed or dispatched for it); every admitted
item has its `_id` added to the in-progress set before dispatch, so any
given external ID is admitted to at most one outstanding update state
machine at a time.  Stated as: (1) the dispatched external IDs are pairwise
distinct; (2) every dispatched ID is tracked in-progress afterwards;
(3) every dispatched update originates from an item that was not flagged
`started` and whose ID was not in-progress before the response was
processed; (4) no update is dispatched for an ID that was in-progress
before the response was processed. -/
theorem updatesReceived_at_most_once_admission (inProgress : List String)
    (updates : List UpdateItem) :
    (((updatesReceived inProgress ⟨true, some updates⟩).dispatched.map
        Update.updateId).Nodup)
    ∧ (∀ u ∈ (updatesReceived inProgress ⟨true, some updates⟩).dispatched,
        u.updateId ∈
          (updatesReceived inProgress ⟨true, some updates⟩).updatesInProgress)
    ∧ (∀ u ∈ (updatesReceived inProgress ⟨true, some updates⟩).dispatched,
        ∃ item, item ∈ updates ∧ u = mkUpdate item ∧
          item.started.getD false = false ∧ item._id ∉ inProgress)
    ∧ (∀ item ∈ updates, item._id ∈ inProgress →
        ∀ u ∈ (updatesReceived inProgress ⟨true, some updates⟩).dispatched,
          u.updateId ≠ item._id) := by
  have hinv := foldl_processItem_inv updates
    (inProgress.filter
      (fun x => decide (x ∈ updates.map (fun item => item._id))), [])
    (fun u hu => absurd hu (List.not_mem_nil u)) (by simp)
  have hprov := foldl_processItem_provenance updates
    (inProgress.filter
      (fun x => decide (x ∈ updates.map (fun item => item._id))), [])
  rw [updatesReceived_success]
  dsimp only
  refine ⟨hinv.2, hinv.1, ?_, ?_⟩
  · intro u hu
    rcases hprov u hu with h | ⟨item, hi, he, hs, hn⟩
    · exact absurd h (List.not_mem_nil u)
    · refine ⟨item, hi, he, hs, fun hin => hn ?_⟩
      exact List.mem_filter.mpr
        ⟨hin, decide_eq_true (List.mem_map.mpr ⟨item, hi, rfl⟩)⟩
  · intro item hitem hin u hu hEq
    rcases hprov u hu with h | ⟨item', _, he', _, hn'⟩
    · exact absurd h (List.not_mem_nil u)
    · have hid : u.updateId = item'._id := by rw [he']; rfl
      apply hn'
      rw [← hid, hEq]
      exact List.mem_filter.mpr
        ⟨hin, decide_eq_true (List.mem_map.mpr ⟨item, hitem, rfl⟩)⟩

/-- C2: for every successful fetch response, every ID that was tracked as
in-progress before the response was processed but does not appear among
the `_id` fields of the response's items is removed from the in-progress
set by the end of processing that response. -/
theorem updatesReceived_stale_cleanup (inProgress : List String)
    (updates : List UpdateItem) :
    ∀ x ∈ inProgress, x ∉ updates.map (fun item => item._id) →
      x ∉ (updatesReceived inProgress ⟨true, some updates⟩).updatesInProgress := by
  intro x _hx hnot hmem
  rw [updatesReceived_success] at hmem
  dsimp only at hmem
  rcases foldl_processItem_fst_from updates _ x hmem with h | h
  · exact hnot (of_decide_eq_true (List.mem_filter.mp h).2)
  · exact hnot h

/-- Witness for C2: the ID "old" is tracked in-progress, a successful
fetch response with an empty item list arrives, and "old" is gone from
the in-progress set afterwards. -/
theorem updatesReceived_stale_cleanup_witness :
    "old" ∈ ["old"]
    ∧ "old" ∉ (([] : List UpdateItem).map (fun item => item._id))
    ∧ "old" ∉ (updatesReceived ["old"] ⟨true, some []⟩).updatesInProgress :=
  ⟨by simp, by simp,
    updatesReceived_stale_cleanup ["old"] [] "old" (by simp) (by simp)⟩

/-- C3: for every fetch cycle that fails at the transport level, or whose
response has `success` false or `data` absent, no state is mutated: the
in-progress set is unchanged, no update is constructed or dispatched, and
no batch report is registered; the failure is only logged, so the next
scheduled or triggered fetch retries from the same state. -/
theorem startUpdate_failure_no_mutation (inProgress : List String)
    (r : FetchResult)
    (h : (∃ e, r = FetchResult.transportError e) ∨
      (∃ resp, r = FetchResult.ok resp ∧
        (resp.success = false ∨ resp.data = none))) :
    startUpdate inProgress r = ⟨inProgress, [], false⟩ := by
  rcases h with ⟨e, rfl⟩ | ⟨resp, rfl, hresp⟩
  · rfl
  · rcases resp with ⟨s, d⟩
    rcases hresp with h | h
    · subst h; rfl
    · subst h; cases s <;> rfl

/-- Witness for C3: a transport error leaves the in-progress set
`["a"]` unchanged, dispatches nothing, and registers no batch. -/
theorem startUpdate_failure_no_mutation_witness :
    startUpdate ["a"] (FetchResult.transportError "connection refused") =
      ⟨["a"], [], false⟩ :=
  startUpdate_failure_no_mutation ["a"]
    (FetchResult.transportError "connection refused")
    (Or.inl ⟨"connection refused", rfl⟩)

/-- C4: for every admitted fetch item, the item's `config` block is merged
into the update's payload iff the `config` field is present and is a dict;
a `config` of any other shape is silently dropped (payload stays empty)
while the update is still constructed with its class, type and external ID
intact, so neither the update nor the batch fails. -/
theorem mkUpdate_config_merge (item : UpdateItem) :
    (∀ kvs, item.config = some (JValue.obj kvs) →
      (mkUpdate item).payload = kvs)
    ∧ (∀ v, item.config = some v → (∀ kvs, v ≠ JValue.obj kvs) →
        (mkUpdate item).payload = [])
    ∧ (item.config = none → (mkUpdate item).payload = [])
    ∧ ((mkUpdate item).updateClass = item.updateClass
        ∧ (mkUpdate item).updateType = item.updateType
        ∧ (mkUpdate item).external.update_id = item._id) := by
  refine ⟨?_, ?_, ?_, rfl, rfl, rfl⟩
  · intro kvs h
    simp [mkUpdate, h]
  · intro v h hne
    cases v with
    | obj kvs => exact absurd rfl (hne kvs)
    | str s => simp [mkUpdate, h]
    | num n => simp [mkUpdate, h]
    | jbool b => simp [mkUpdate, h]
    | null => simp [mkUpdate, h]
    | arr xs => simp [mkUpdate, h]
  · intro h
    simp [mkUpdate, h]

/-- Witness for C4: an item with a dict `config` has it merged into the
payload; an item whose `config` is the string "garbage" gets an empty
payload but is still constructed. -/
theorem mkUpdate_config_merge_witness :
    (mkUpdate ⟨"u1", "CHUTE", "create", none, none, none,
        some (JValue.obj [("name", JValue.str "x")])⟩).payload =
      [("name", JValue.str "x")]
    ∧ (mkUpdate ⟨"u2", "CHUTE", "create", none, none, none,
        some (JValue.str "garbage")⟩).payload = []
    ∧ (mkUpdate ⟨"u2", "CHUTE", "create", none, none, none,
        some (JValue.str "garbage")⟩).updateClass = "CHUTE" :=
  ⟨(mkUpdate_config_merge _).1 [("name", JValue.str "x")] rfl,
   (mkUpdate_config_merge _).2.1 (JValue.str "garbage") rfl
     (fun _ h => JValue.noConfusion h),
   (mkUpdate_config_merge _).2.2.2.1⟩

/-- C5 counterexample: the claim says a fetch item whose `updateClass` is
unrecognized gets no in-progress tracking entry.  On the code, the `_id`
is added to `updatesInProgress` (apibridge.py line 193) before the
dictionary is dispatched to `configurer.updateList` (line 218) where
construction fails, and nothing removes it on failure: with an empty
in-progress set, processing a successful response containing the single
item `⟨"u1", "FAIL", "create", ...⟩` leaves "u1" tracked in-progress even
though construction of its update raises. -/
theorem unrecognized_class_still_tracked :
    (∃ e, parse (mkUpdate ⟨"u1", "FAIL", "create", none, none, none, none⟩) =
      Except.error e)
    ∧ "u1" ∈ (updatesReceived []
        ⟨true, some [⟨"u1", "FAIL", "create", none, none, none, none⟩]⟩).updatesInProgress := by
  constructor
  · exact ⟨"Unknown updateClass: FAIL", rfl⟩
  · decide

/-- C5 amended: a fetch item whose `updateClass` is unrecognized at
admission fails construction (no update state machine runs for it), but
its `_id` is added to the in-progress set before dispatch; the stale
tracking entry is removed only once a later successful fetch response
omits the ID, after which the corrected item can be admitted again. -/
theorem unrecognized_class_admission (inProgress : List String)
    (item : UpdateItem)
    (hclass : item.updateClass ∉ recognizedUpdateClasses)
    (hnew : item._id ∉ inProgress)
    (hstart : item.started.getD false = false) :
    (∃ e, parse (mkUpdate item) = Except.error e)
    ∧ item._id ∈
        (updatesReceived inProgress ⟨true, some [item]⟩).updatesInProgress
    ∧ (∀ updates2 : List UpdateItem,
        item._id ∉ updates2.map (fun i => i._id) →
        item._id ∉ (updatesReceived
          (updatesReceived inProgress ⟨true, some [item]⟩).updatesInProgress
          ⟨true, some updates2⟩).updatesInProgress) := by
  refine ⟨⟨"Unknown updateClass: " ++ item.updateClass, ?_⟩, ?_, ?_⟩
  · have hcl : (mkUpdate item).updateClass = item.updateClass := rfl
    simp only [parse, hcl]
    rw [if_neg hclass]
  · rw [updatesReceived_success]
    dsimp only
    have hnotc : item._id ∉ inProgress.filter
        (fun x => decide (x ∈ [item].map (fun i => i._id))) :=
      fun hc => hnew (List.mem_filter.mp hc).1
    have hguard : ¬(item._id ∈ (inProgress.filter
        (fun x => decide (x ∈ [item].map (fun i => i._id))), ([] : List Update)).1
        ∨ item.started.getD false = true) := by
      rw [not_or]
      exact ⟨hnotc, by rw [hstart]; exact Bool.false_ne_true⟩
    simp only [List.foldl_cons, List.foldl_nil, processItem, if_neg hguard]
    exact List.mem_cons_self _ _
  · intro updates2 hnot2 hmem
    rw [updatesReceived_success (updatesReceived inProgress
      ⟨true, some [item]⟩).updatesInProgress updates2] at hmem
    dsimp only at hmem
    rcases foldl_processItem_fst_from updates2 _ _ hmem with h | h
    · exact hnot2 (of_decide_eq_true (List.mem_filter.mp h).2)
    · exact hnot2 h

/-- Witness for C5's amended statement, at the item
`⟨"u1", "FAIL", "create", ...⟩` with an empty in-progress set. -/
theorem unrecognized_class_admission_witness :
    ("FAIL" ∉ recognizedUpdateClasses)
    ∧ ((∃ e, parse (mkUpdate ⟨"u1", "FAIL", "create", none, none, none, none⟩) =
          Except.error e)
      ∧ "u1" ∈ (updatesReceived []
          ⟨true, some [⟨"u1", "FAIL", "create", none, none, none, none⟩]⟩).updatesInProgress
      ∧ (∀ updates2 : List UpdateItem,
          "u1" ∉ updates2.map (fun i => i._id) →
          "u1" ∉ (updatesReceived
            (updatesReceived []
              ⟨true, some [⟨"u1", "FAIL", "create", none, none, none, none⟩]⟩).updatesInProgress
            ⟨true, some updates2⟩).updatesInProgress)) :=
  ⟨by decide,
   unrecognized_class_admission [] ⟨"u1", "FAIL", "create", none, none, none, none⟩
     (by decide) (by decide) rfl⟩

/-- C6 counterexample: the claim says the completion callback is invoked
with the result value only, so the caller awaiting completion never
observes the update's other state.  The completion callback installed for
server-originated updates is `UpdateManager.updateComplete`
(apibridge.py line 196 with `func=d.callback`, line 203), and it receives
the whole update object: two completed updates with identical `result`
but different `delegated` flags make it behave differently, so it
observes state beyond `result`. -/
theorem updateComplete_observes_entity :
    (CompletedUpdate.mk ⟨true, "ok"⟩ false ⟨"u1", none, none⟩).result =
      (CompletedUpdate.mk ⟨true, "ok"⟩ true ⟨"u1", none, none⟩).result
    ∧ updateComplete (CompletedUpdate.mk ⟨true, "ok"⟩ false ⟨"u1", none, none⟩) ≠
      updateComplete (CompletedUpdate.mk ⟨true, "ok"⟩ true ⟨"u1", none, none⟩) := by
  constructor
  · rfl
  · decide

/-- C6 amended: `complete()` invokes the update's completion callback with
the whole update object; in the `APIBridge` path the `UpdateCallback`
wrapper then forwards only `update.result` to the Deferred the caller
awaits, so the value delivered to that caller depends only on the result
record and never on the update's other state. -/
theorem updateCallback_forwards_result_only {α : Type}
    (d : UpdateResult → α) (u₁ u₂ : CompletedUpdate)
    (h : u₁.result = u₂.result) :
    UpdateCallback.call d u₁ = UpdateCallback.call d u₂ := by
  simp [UpdateCallback.call, h]

/-- Witness for C6's amended statement: two completed updates differing in
everything but `result` deliver the same value to the awaiting
Deferred. -/
theorem updateCallback_forwards_result_only_witness :
    UpdateCallback.call (fun r => r.message)
      ⟨⟨true, "ok"⟩, false, ⟨"u1", none, none⟩⟩ =
    UpdateCallback.call (fun r => r.message)
      ⟨⟨true, "ok"⟩, true, ⟨"u2", some "c", none⟩⟩ :=
  updateCallback_forwards_result_only (fun r => r.message) _ _ rfl

/-- C7: for every server-originated update that completes, if the update
is not delegated then exactly one completion notice — a PATCH to
`/api/routers/\x7brouter_id\x7d/updates/\x7bupdate_id\x7d` with body
`\x7bop: "replace", path: "/completed", value: true\x7d` — is produced by
its own `updateComplete` callback (fired at that update's completion,
independent of the batch aggregate); if the update is delegated, no such
notice is sent by this manager. -/
theorem updateComplete_report (u : CompletedUpdate) :
    (u.delegated = false →
      updateComplete u = some
        ⟨"/api/routers/{router_id}/updates/" ++ u.external.update_id,
          "replace", "/completed", true⟩)
    ∧ (u.delegated = true → updateComplete u = none) := by
  constructor
  · intro h
    simp [updateComplete, h]
  · intro h
    simp [updateComplete, h]

/-- Witness for C7: a non-delegated completed update with external ID
"abc" produces exactly the PATCH completion notice. -/
theorem updateComplete_report_witness :
    updateComplete ⟨⟨true, "ok"⟩, false, ⟨"abc", none, none⟩⟩ =
      some ⟨"/api/routers/{router_id}/updates/" ++ "abc",
        "replace", "/completed", true⟩ :=
  (updateComplete_report ⟨⟨true, "ok"⟩, false, ⟨"abc", none, none⟩⟩).1 rfl

/-- The `DeferredList` counter fires `allUpdatesComplete` exactly at the
completion event that brings the count of fired member deferreds to `n`. -/
lemma foldl_dlStep_spec (n : Nat) (order : List Nat) :
    ∀ (c : Nat) (acc : List BatchEvent), order ≠ [] → c + order.length = n →
      (order.foldl (dlStep n) (c, acc)).2 =
        acc ++ order.map BatchEvent.completes ++ [BatchEvent.stateReport] := by
  induction order with
  | nil => intro c acc hne _; exact absurd rfl hne
  | cons i rest ih =>
      intro c acc _ hlen
      simp only [List.foldl_cons]
      by_cases hrest : rest = []
      · subst hrest
        have hc : c + 1 = n := by simpa using hlen
        simp [dlStep, hc]
      · have hlen' : (c + 1) + rest.length = n := by
          simp only [List.length_cons] at hlen
          omega
        have hc1 : ¬(c + 1 = n) := by
          intro h
          have : rest.length = 0 := by omega
          exact hrest (List.eq_nil_of_length_eq_zero this)
        simp only [dlStep, if_neg hc1]
        rw [ih (c + 1) (acc ++ [BatchEvent.completes i]) hrest hlen']
        simp

/-- C8: for every batch of updates dispatched from one fetch response
(`batchRegistered` true, i.e. the `DeferredList` with the
`allUpdatesComplete` callback was installed), once each dispatched update
completes exactly once (in any order), the resulting event trace contains
the aggregate state report exactly once, after every member's completion
event. -/
theorem batch_single_aggregate_report (inProgress : List String)
    (updates : List UpdateItem) (order : List Nat)
    (hreg : (updatesReceived inProgress ⟨true, some updates⟩).batchRegistered
      = true)
    (hnodup : order.Nodup)
    (hcover : ∀ i, i ∈ order ↔
      i < (updatesReceived inProgress ⟨true, some updates⟩).dispatched.length) :
    runBatch
        (updatesReceived inProgress ⟨true, some updates⟩).dispatched.length
        order =
      order.map BatchEvent.completes ++ [BatchEvent.stateReport] := by
  have hperm : order.Perm (List.range
      (updatesReceived inProgress ⟨true, some updates⟩).dispatched.length) := by
    rw [List.perm_ext_iff_of_nodup hnodup (List.nodup_range _)]
    intro a
    rw [hcover a, List.mem_range]
  have hlen : order.length =
      (updatesReceived inProgress ⟨true, some updates⟩).dispatched.length := by
    rw [hperm.length_eq, List.length_range]
  have hpos : 0 <
      (updatesReceived inProgress ⟨true, some updates⟩).dispatched.length := by
    rw [updatesReceived_success] at hreg
    dsimp only at hreg
    rw [updatesReceived_success]
    dsimp only
    exact of_decide_eq_true hreg
  have hne : order ≠ [] := by
    intro h
    rw [h] at hlen
    simp only [List.length_nil] at hlen
    omega
  have := foldl_dlStep_spec
    (updatesReceived inProgress ⟨true, some updates⟩).dispatched.length
    order 0 [] hne (by omega)
  simpa [runBatch] using this

/-- Witness for C8: one update is dispatched from a successful response;
after its single completion event, the trace is that completion followed
by exactly one aggregate state report. -/
theorem batch_single_aggregate_report_witness :
    runBatch
        (updatesReceived []
          ⟨true, some [⟨"u1", "CHUTE", "create", none, none, none, none⟩]⟩).dispatched.length
        [0] =
      [BatchEvent.completes 0, BatchEvent.stateReport] := by
  have h := batch_single_aggregate_report []
    [⟨"u1", "CHUTE", "create", none, none, none, none⟩] [0] rfl
    (by decide)
    (by
      intro i
      show i ∈ [0] ↔ i < 1
      simp only [List.mem_singleton]
      omega)
  simpa using h

/-- `List.lookup` over an appended list falls through to the second list
when the key is absent from the first. -/
lemma lookup_append_of_eq_none {β : Type} (l₁ l₂ : List (String × β))
    (a : String) (h : List.lookup a l₁ = none) :
    List.lookup a (l₁ ++ l₂) = List.lookup a l₂ := by
  induction l₁ with
  | nil => rfl
  | cons kv t ih =>
      obtain ⟨k, v⟩ := kv
      cases hk : (a == k) with
      | true => simp [List.lookup, hk] at h
      | false =>
          simp only [List.cons_append, List.lookup, hk] at h ⊢
          exact ih h

/-- C10: for every call to `APIBridge.update` (and thus to the chute
operations and `updateHostConfig` built on it): with no configurer set the
call raises and dispatches nothing; with a configurer set it dispatches
the update dictionary and returns the Deferred, with `updateClass`
defaulted to `'CHUTE'` when the options do not specify one, and
`updateHostConfig` explicitly passing `'ROUTER'`. -/
theorem apibridge_update_spec (configurer : Option Configurer)
    (updateType : String) (options : List (String × JValue)) :
    (configurer = none →
      APIBridge.update configurer updateType options =
        BridgeOutcome.raised "Error: chute configurer is not available.")
    ∧ (∀ c, configurer = some c →
        ∃ bu, APIBridge.update configurer updateType options =
            BridgeOutcome.deferredReturned bu
          ∧ bu.updateType = updateType
          ∧ List.lookup "updateClass" bu.options =
              some ((List.lookup "updateClass" options).getD
                (JValue.str "CHUTE")))
    ∧ (∀ c config, configurer = some c →
        ∃ bu, APIBridge.updateHostConfig configurer config =
            BridgeOutcome.deferredReturned bu
          ∧ List.lookup "updateClass" bu.options =
              some (JValue.str "ROUTER")) := by
  refine ⟨?_, ?_, ?_⟩
  · intro h
    subst h
    rfl
  · intro c h
    subst h
    cases hl : List.lookup "updateClass" options with
    | none =>
        refine ⟨⟨updateType, options ++ [("updateClass", JValue.str "CHUTE")]⟩,
          ?_, rfl, ?_⟩
        · simp [APIBridge.update, hl]
        · rw [lookup_append_of_eq_none options _ _ hl]
          rfl
    | some v =>
        refine ⟨⟨updateType, options⟩, ?_, rfl, ?_⟩
        · simp [APIBridge.update, hl]
        · rw [hl]
          rfl
  · intro c config h
    subst h
    exact ⟨⟨"sethostconfig",
      [("updateClass", JValue.str "ROUTER"),
       ("name", JValue.str "__PARADROP__"),
       ("hostconfig", config)]⟩, rfl, rfl⟩

/-- Witness for C10: without a configurer the call raises; with one, a
`create` call with no `updateClass` option dispatches with class
`'CHUTE'`, and `updateHostConfig` dispatches with class `'ROUTER'`. -/
theorem apibridge_update_spec_witness :
    (APIBridge.update none "create" [] =
      BridgeOutcome.raised "Error: chute configurer is not available.")
    ∧ (∃ bu, APIBridge.update (some ⟨"pdconf"⟩) "create" [] =
          BridgeOutcome.deferredReturned bu
        ∧ bu.updateType = "create"
        ∧ List.lookup "updateClass" bu.options =
            some ((List.lookup "updateClass"
              ([] : List (String × JValue))).getD (JValue.str "CHUTE")))
    ∧ (∃ bu, APIBridge.updateHostConfig (some ⟨"pdconf"⟩) JValue.null =
          BridgeOutcome.deferredReturned bu
        ∧ List.lookup "updateClass" bu.options =
            some (JValue.str "ROUTER")) :=
  ⟨(apibridge_update_spec none "create" []).1 rfl,
   (apibridge_update_spec (some ⟨"pdconf"⟩) "create" []).2.1 ⟨"pdconf"⟩ rfl,
   (apibridge_update_spec (some ⟨"pdconf"⟩) "x" []).2.2 ⟨"pdconf"⟩
     JValue.null rfl⟩

/-- C9: a match query with an empty section pattern returns the empty
sequence for every store; and on the store parsed from the test file
(`config interface wan #__PARADROP__` with options `ifname 'eth0'` and
`proto 'dhcp'`), the pattern `\x7btype: interface, name: wan, ownerTag:
__PARADROP__\x7d` returns exactly the one section with options
`\x7bifname: eth0, proto: dhcp\x7d`, while owner tag `chute` returns
none. -/
theorem getConfig_match_spec :
    (∀ sections : List ConfigSection,
      getConfig sections ⟨none, none, none⟩ = [])
    ∧ getConfig (loadConfig networkWanConfig)
        ⟨some "interface", some "wan", some "__PARADROP__"⟩ =
      [⟨"interface", some "wan", some "__PARADROP__",
        [("ifname", "eth0"), ("proto", "dhcp")]⟩]
    ∧ getConfig (loadConfig networkWanConfig)
        ⟨some "interface", some "wan", some "chute"⟩ = [] := by
  refine ⟨?_, ?_, ?_⟩
  · intro sections
    simp [getConfig, SectionPattern.isEmpty]
  · decide
  · decide

end Paradrop
